import Mathlib

set_option maxHeartbeats 1000000

/-!
Verification of the GridAPI release-orchestration scripts
(`build_script.py`, `release_script.py`).

Python strings are modelled as lists of characters (`Line`), files as
lists of lines (the scripts immediately split file content on newlines
and re-join with newlines, so a file is faithfully a list of lines).
External commands (subprocess, git, pyinstaller, twine, hashlib file
reads) are modelled by oracle environments recording the outcome each
external call would produce; each script function becomes a pure Lean
function of its arguments and the oracle, returning its result together
with a trace of the external operations it invoked.
-/

namespace GridApi

/-! ## Python string primitives on lists of characters -/

abbrev Line := List Char

/-- Python whitespace characters recognised by `str.strip()`. -/
def pyIsSpace (c : Char) : Bool :=
  c = ' ' || c = '\t' || c = '\n' || c = '\r' || c = Char.ofNat 11 || c = Char.ofNat 12

/-- Drop trailing characters satisfying `p`. -/
def dropTrailing (p : Char → Bool) (l : Line) : Line :=
  (l.reverse.dropWhile p).reverse

/-- Python `str.strip()`: remove leading and trailing whitespace. -/
def pyStrip (l : Line) : Line :=
  dropTrailing pyIsSpace (l.dropWhile pyIsSpace)

/-- Python `str.strip('"')`: remove leading and trailing double quotes. -/
def pyStripQuotes (l : Line) : Line :=
  dropTrailing (fun c => c = '"') (l.dropWhile (fun c => c = '"'))

/-- Python `str.split(c)` for a one-character separator. -/
def splitOnChar (c : Char) : Line → List Line
  | [] => [[]]
  | a :: rest =>
    match splitOnChar c rest with
    | [] => [[]]
    | h :: t => if a = c then [] :: h :: t else (a :: h) :: t

/-- Join a list of pieces with a one-character separator (inverse of split). -/
def joinWithChar (c : Char) : List Line → Line
  | [] => []
  | [l] => l
  | l :: l₂ :: ls => l ++ c :: joinWithChar c (l₂ :: ls)

/-! ## VersionStore (`release_script.py`: `get_current_version`, `update_version`) -/

/-- The test `line.strip().startswith("version =")` from `release_script.py`. -/
def hasVersionLine (l : Line) : Bool :=
  ("version =".data).isPrefixOf (pyStrip l)

/-- `line.split("=")[1].strip().strip('"')` from `get_current_version`. -/
def parseVersionValue (l : Line) : Line :=
  pyStripQuotes (pyStrip ((splitOnChar '=' l).getD 1 []))

/-- `get_current_version` from `release_script.py`: scan the metadata file
line by line for the first line whose stripped form starts with
`version =`; parse its value; default to `1.0.0` when absent. -/
def get_current_version (file : List Line) : Line :=
  match file.find? hasVersionLine with
  | some l => parseVersionValue l
  | none => "1.0.0".data

/-- The replacement line `version = "{version}"` written by `update_version`. -/
def newVersionLine (v : Line) : Line :=
  "version = \"".data ++ v ++ ['"']

/-- The loop body of `update_version`: replace the first line whose
stripped form starts with `version =`, then stop (`break`). -/
def update_lines (v : Line) : List Line → List Line
  | [] => []
  | l :: ls =>
    if hasVersionLine l then newVersionLine v :: ls
    else l :: update_lines v ls

/-- `update_version` from `release_script.py`: rewrite the first version
line and report success.  The function returns `True` whether or not a
version line was found (only an I/O exception yields `False`, which is
outside this filesystem model). -/
def update_version (v : Line) (file : List Line) : Bool × List Line :=
  (true, update_lines v file)

/-- A version string of the shape `X.Y.Z`: three nonempty digit groups
joined by dots. -/
def isXYZ (v : Line) : Bool :=
  match splitOnChar '.' v with
  | [a, b, c] =>
    !a.isEmpty && !b.isEmpty && !c.isEmpty &&
      a.all Char.isDigit && b.all Char.isDigit && c.all Char.isDigit
  | _ => false

/-- Characters that can occur in an `X.Y.Z` version string. -/
def isDigitOrDot (c : Char) : Bool :=
  c.isDigit || c = '.'

/-! ## Lemmas about the string primitives -/

theorem dropWhile_eq_self_of_all (p : Char → Bool) (l : Line)
    (h : ∀ x ∈ l, p x = false) : l.dropWhile p = l := by
  cases l with
  | nil => rfl
  | cons a t => simp [List.dropWhile_cons, h a (List.mem_cons_self a t)]

theorem dropTrailing_concat_neg (p : Char → Bool) (l : Line) (b : Char)
    (hb : p b = false) : dropTrailing p (l ++ [b]) = l ++ [b] := by
  unfold dropTrailing
  rw [List.reverse_append]
  simp [List.dropWhile_cons, hb]

theorem dropTrailing_concat_pos (p : Char → Bool) (l : Line) (b : Char)
    (hb : p b = true) : dropTrailing p (l ++ [b]) = dropTrailing p l := by
  unfold dropTrailing
  rw [List.reverse_append]
  simp [List.dropWhile_cons, hb]

theorem dropTrailing_eq_self_of_all (p : Char → Bool) (l : Line)
    (h : ∀ x ∈ l, p x = false) : dropTrailing p l = l := by
  unfold dropTrailing
  rw [dropWhile_eq_self_of_all, List.reverse_reverse]
  intro x hx
  exact h x (List.mem_reverse.mp hx)

theorem pyStrip_edge (a : Char) (m : Line) (b : Char)
    (ha : pyIsSpace a = false) (hb : pyIsSpace b = false) :
    pyStrip (a :: (m ++ [b])) = a :: (m ++ [b]) := by
  unfold pyStrip
  rw [show (a :: (m ++ [b])).dropWhile pyIsSpace = a :: (m ++ [b]) by
        simp [List.dropWhile_cons, ha]]
  rw [show a :: (m ++ [b]) = (a :: m) ++ [b] by simp]
  exact dropTrailing_concat_neg _ _ _ hb

theorem isPrefixOf_append_self (p rest : Line) :
    p.isPrefixOf (p ++ rest) = true := by
  induction p with
  | nil => simp [List.isPrefixOf]
  | cons a t ih => simp [List.isPrefixOf, ih]

theorem splitOnChar_ne_nil (c : Char) (l : Line) : splitOnChar c l ≠ [] := by
  cases l with
  | nil => simp [splitOnChar]
  | cons a rest =>
    simp only [splitOnChar]
    cases splitOnChar c rest with
    | nil => simp
    | cons h t =>
      by_cases hac : a = c <;> simp [hac]

theorem splitOnChar_eq_single (c : Char) (l : Line)
    (h : ∀ x ∈ l, x ≠ c) : splitOnChar c l = [l] := by
  induction l with
  | nil => rfl
  | cons a rest ih =>
    have hne : a ≠ c := h a (List.mem_cons_self a rest)
    have hrest : splitOnChar c rest = [rest] :=
      ih (fun x hx => h x (List.mem_cons_of_mem a hx))
    simp only [splitOnChar]
    rw [hrest]
    simp [hne]

theorem splitOnChar_sep (c : Char) (pre suf : Line)
    (h : ∀ x ∈ pre, x ≠ c) :
    splitOnChar c (pre ++ c :: suf) = pre :: splitOnChar c suf := by
  induction pre with
  | nil =>
    simp only [List.nil_append, splitOnChar]
    cases hm : splitOnChar c suf with
    | nil => exact absurd hm (splitOnChar_ne_nil c suf)
    | cons hd t => simp
  | cons a pre ih =>
    have hne : a ≠ c := h a (List.mem_cons_self a pre)
    have hpre := ih (fun x hx => h x (List.mem_cons_of_mem a hx))
    simp only [List.cons_append, splitOnChar]
    simp only [List.append_eq]
    rw [hpre]
    simp [hne]

theorem dd_ne (c : Char) (h : isDigitOrDot c = true) : c ≠ '=' ∧ c ≠ '"' := by
  constructor <;> intro heq <;> subst heq <;> exact absurd h (by decide)

theorem dd_not_space (c : Char) (h : isDigitOrDot c = true) :
    pyIsSpace c = false := by
  cases hps : pyIsSpace c with
  | false => rfl
  | true =>
    have hc : ((((c = ' ' ∨ c = '\t') ∨ c = '\n') ∨ c = '\r') ∨
        c = Char.ofNat 11) ∨ c = Char.ofNat 12 := by
      simpa [pyIsSpace, Bool.or_eq_true, decide_eq_true_eq] using hps
    rcases hc with (((((h1 | h1) | h1) | h1) | h1) | h1) <;> subst h1 <;>
      exact absurd h (by decide)

theorem joinWithChar_splitOnChar (c : Char) (s : Line) :
    joinWithChar c (splitOnChar c s) = s := by
  induction s with
  | nil => rfl
  | cons a rest ih =>
    simp only [splitOnChar]
    cases hm : splitOnChar c rest with
    | nil => exact absurd hm (splitOnChar_ne_nil c rest)
    | cons hd t =>
      rw [hm] at ih
      by_cases hac : a = c
      · subst hac
        simp only [if_pos rfl]
        cases t with
        | nil => simpa [joinWithChar] using ih
        | cons t1 ts => simpa [joinWithChar] using ih
      · simp only [if_neg hac]
        cases t with
        | nil =>
          simp only [joinWithChar] at ih ⊢
          rw [ih]
        | cons t1 ts =>
          simp only [joinWithChar] at ih ⊢
          rw [List.cons_append, ih]

/-! ## Behaviour of the rewritten version line -/

theorem pyStrip_newVersionLine (v : Line) :
    pyStrip (newVersionLine v) = newVersionLine v := by
  have h1 : newVersionLine v = 'v' :: (("ersion = \"".data ++ v) ++ ['"']) := by
    show "version = \"".data ++ v ++ ['"'] = _
    rw [show ("version = \"".data : Line) = 'v' :: "ersion = \"".data by decide]
    simp
  rw [h1, pyStrip_edge 'v' _ '"' (by decide) (by decide)]

theorem hasVersionLine_new (v : Line) :
    hasVersionLine (newVersionLine v) = true := by
  unfold hasVersionLine
  rw [pyStrip_newVersionLine]
  rw [show newVersionLine v = "version =".data ++ (' ' :: '"' :: (v ++ ['"'])) by
        show "version = \"".data ++ v ++ ['"'] = _
        rw [show ("version = \"".data : Line) = "version =".data ++ [' ', '"'] by decide]
        simp]
  exact isPrefixOf_append_self _ _

theorem parse_newVersionLine (v : Line) (hdd : ∀ c ∈ v, isDigitOrDot c = true) :
    parseVersionValue (newVersionLine v) = v := by
  unfold parseVersionValue
  have hsplit : splitOnChar '=' (newVersionLine v)
      = ["version ".data, ' ' :: '"' :: (v ++ ['"'])] := by
    rw [show newVersionLine v = "version ".data ++ '=' :: (' ' :: '"' :: (v ++ ['"'])) by
          show "version = \"".data ++ v ++ ['"'] = _
          rw [show ("version = \"".data : Line) = "version ".data ++ '=' :: [' ', '"'] by decide]
          simp]
    rw [splitOnChar_sep '=' _ _ (by decide)]
    rw [splitOnChar_eq_single '=' _ ?_]
    intro x hx
    simp only [List.mem_cons, List.mem_append, List.mem_singleton,
      List.not_mem_nil, or_false] at hx
    rcases hx with rfl | rfl | hx | rfl
    · decide
    · decide
    · exact (dd_ne x (hdd x hx)).1
    · decide
  rw [hsplit]
  show pyStripQuotes (pyStrip (' ' :: '"' :: (v ++ ['"']))) = v
  have hstrip : pyStrip (' ' :: '"' :: (v ++ ['"'])) = '"' :: (v ++ ['"']) := by
    unfold pyStrip
    rw [show (' ' :: '"' :: (v ++ ['"'])).dropWhile pyIsSpace = '"' :: (v ++ ['"']) by
          simp [List.dropWhile_cons, show pyIsSpace ' ' = true by decide,
            show pyIsSpace '"' = false by decide]]
    rw [show '"' :: (v ++ ['"']) = ('"' :: v) ++ ['"'] by simp]
    exact dropTrailing_concat_neg _ _ _ (by decide)
  rw [hstrip]
  unfold pyStripQuotes
  rw [List.dropWhile_cons]
  rw [show (decide ('"' = '"') : Bool) = true by decide]
  simp only [if_true]
  cases v with
  | nil => decide
  | cons a t =>
    have hq : ∀ x ∈ a :: t, decide (x = '"') = false := by
      intro x hx
      exact decide_eq_false (dd_ne x (hdd x hx)).2
    rw [show (a :: t) ++ ['"'] = a :: (t ++ ['"']) by simp]
    rw [List.dropWhile_cons]
    simp only [hq a (List.mem_cons_self a t), Bool.false_eq_true, if_false]
    rw [show a :: (t ++ ['"']) = (a :: t) ++ ['"'] by simp]
    rw [dropTrailing_concat_pos _ _ _ (by decide)]
    exact dropTrailing_eq_self_of_all _ _ hq

theorem isXYZ_dd (v : Line) (h : isXYZ v = true) :
    ∀ c ∈ v, isDigitOrDot c = true := by
  unfold isXYZ at h
  split at h
  case h_2 => exact absurd h (by simp)
  case h_1 a b c heq =>
    have hv : v = a ++ '.' :: (b ++ '.' :: c) := by
      have hj := joinWithChar_splitOnChar '.' v
      rw [heq] at hj
      simpa [joinWithChar] using hj.symm
    simp only [Bool.and_eq_true] at h
    obtain ⟨⟨⟨⟨⟨_, _⟩, _⟩, hda⟩, hdb⟩, hdc⟩ := h
    intro ch hch
    rw [hv] at hch
    simp only [List.mem_append, List.mem_cons] at hch
    rcases hch with hx | hx | hx | hx | hx
    · simp [isDigitOrDot, (List.all_eq_true.mp hda) ch hx]
    · subst hx; decide
    · simp [isDigitOrDot, (List.all_eq_true.mp hdb) ch hx]
    · subst hx; decide
    · simp [isDigitOrDot, (List.all_eq_true.mp hdc) ch hx]

/-! ## Structure of `update_version` on files -/

theorem update_lines_split (v : Line) (file : List Line)
    (hf : file.any hasVersionLine = true) :
    ∃ pre l suf,
      file = pre ++ l :: suf ∧
      (∀ x ∈ pre, hasVersionLine x = false) ∧
      hasVersionLine l = true ∧
      update_lines v file = pre ++ newVersionLine v :: suf := by
  induction file with
  | nil => simp at hf
  | cons a t ih =>
    cases h : hasVersionLine a with
    | true =>
      exact ⟨[], a, t, rfl, by simp, h, by simp [update_lines, h]⟩
    | false =>
      have hf' : t.any hasVersionLine = true := by
        simpa [List.any_cons, h] using hf
      obtain ⟨pre, l, suf, h1, h2, h3, h4⟩ := ih hf'
      refine ⟨a :: pre, l, suf, by rw [h1]; rfl, ?_, h3, ?_⟩
      · intro x hx
        rcases List.mem_cons.mp hx with rfl | hx
        · exact h
        · exact h2 x hx
      · simp [update_lines, h, h4]

theorem update_lines_id (v : Line) (file : List Line)
    (h : ∀ l ∈ file, hasVersionLine l = false) :
    update_lines v file = file := by
  induction file with
  | nil => rfl
  | cons a t ih =>
    simp only [update_lines, h a (List.mem_cons_self a t), Bool.false_eq_true,
      if_false]
    rw [ih (fun x hx => h x (List.mem_cons_of_mem a hx))]

theorem get_current_version_split (pre : List Line) (l : Line) (suf : List Line)
    (h2 : ∀ x ∈ pre, hasVersionLine x = false) (h3 : hasVersionLine l = true) :
    get_current_version (pre ++ l :: suf) = parseVersionValue l := by
  induction pre with
  | nil => simp [get_current_version, List.find?, h3]
  | cons a t ih =>
    have ha : hasVersionLine a = false := h2 a (List.mem_cons_self a t)
    have := ih (fun x hx => h2 x (List.mem_cons_of_mem a hx))
    simpa [get_current_version, List.find?, ha] using this

/-! ## Claims C2 and C10: the version store round trip -/

/-- C2 (counterexample): the claim fails for a metadata file with no
version line.  Writing `2.0.0` to the empty file (one empty line, as
Python's `"".split("\n")` yields) reports success but a subsequent read
returns the default `1.0.0`, not `2.0.0`. -/
theorem c2_counterexample :
    (update_version "2.0.0".data [[]]).1 = true ∧
    get_current_version (update_version "2.0.0".data [[]]).2 ≠ "2.0.0".data := by
  decide

/-- C2 (amended): for every version string V of the form `X.Y.Z` and
every metadata file that contains at least one line whose stripped form
starts with `version =`, writing V with `update_version` and then
reading with `get_current_version` returns V, and the file splits as
`pre ++ l :: suf` around the first version line `l`, with `update_version`
replacing only `l` and keeping every line of `pre` and `suf` byte-identical. -/
theorem c2_version_write_read (v : Line) (file : List Line)
    (hv : isXYZ v = true) (hf : file.any hasVersionLine = true) :
    get_current_version (update_version v file).2 = v ∧
    ∃ pre l suf,
      file = pre ++ l :: suf ∧
      (∀ x ∈ pre, hasVersionLine x = false) ∧
      hasVersionLine l = true ∧
      (update_version v file).2 = pre ++ newVersionLine v :: suf := by
  have hdd := isXYZ_dd v hv
  obtain ⟨pre, l, suf, h1, h2, h3, h4⟩ := update_lines_split v file hf
  refine ⟨?_, pre, l, suf, h1, h2, h3, by simpa [update_version] using h4⟩
  show get_current_version (update_lines v file) = v
  rw [h4, get_current_version_split pre _ suf h2 (hasVersionLine_new v),
    parse_newVersionLine v hdd]

/-- Witness for C2 (amended) at a concrete metadata file. -/
theorem c2_version_write_read_witness :
    isXYZ "2.1.3".data = true ∧
    (["[project]".data, "version = \"1.0.0\"".data,
      "name = \"grid_api\"".data].any hasVersionLine) = true ∧
    get_current_version (update_version "2.1.3".data
      ["[project]".data, "version = \"1.0.0\"".data,
       "name = \"grid_api\"".data]).2 = "2.1.3".data :=
  ⟨by decide, by decide,
    (c2_version_write_read "2.1.3".data
      ["[project]".data, "version = \"1.0.0\"".data, "name = \"grid_api\"".data]
      (by decide) (by decide)).1⟩

/-- C10: if the metadata file contains no line whose stripped form starts
with `version =`, then `update_version` reports success while leaving the
file unchanged, and a subsequent `get_current_version` returns the
default `1.0.0` rather than the written version. -/
theorem c10_missing_version_line (v : Line) (file : List Line)
    (h : ∀ l ∈ file, hasVersionLine l = false) (hv : v ≠ "1.0.0".data) :
    update_version v file = (true, file) ∧
    get_current_version file = "1.0.0".data ∧
    get_current_version (update_version v file).2 ≠ v := by
  have hid := update_lines_id v file h
  have hget : get_current_version file = "1.0.0".data := by
    unfold get_current_version
    rw [List.find?_eq_none.mpr (fun x hx => by simp [h x hx])]
  refine ⟨by simp [update_version, hid], hget, ?_⟩
  rw [show (update_version v file).2 = file by simp [update_version, hid], hget]
  exact Ne.symm hv

/-- Witness for C10 at a concrete metadata file with no version line. -/
theorem c10_missing_version_line_witness :
    get_current_version (update_version "2.0.0".data
      ["[project]".data, "name = \"grid_api\"".data]).2 ≠ "2.0.0".data :=
  (c10_missing_version_line "2.0.0".data
    ["[project]".data, "name = \"grid_api\"".data]
    (by decide) (by decide)).2.2

/-! ## CommandRunner (`run_command` in `build_script.py` / `release_script.py`)

Both scripts run the command string through
`subprocess.run(cmd, shell=True, check=True, ...)` inside `try`, catch
exactly `subprocess.CalledProcessError` and return `False`; a zero exit
returns `True`.  Because of `shell=True`, the command line is handed to
the host shell: when the named command binary cannot be resolved, the
shell itself completes with exit code 127 (`command not found`) instead
of `subprocess.run` raising `FileNotFoundError`, so `check=True` turns
that case into a `CalledProcessError` too, and the `except` clause
catches it.  The oracle is the shell's resolution of the command line;
`run_command` keeps the `Except` return type so that a propagated
exception is representable — the theorems show none is ever produced. -/

/-- How the host shell resolves the command line: either the named
binary exists and the command completes with some exit code, or the
binary is not found and the shell itself exits 127. -/
inductive CmdResolution where
  | found (exitCode : Nat) (stdout stderr : Line)
  | binaryNotFound
  deriving DecidableEq, Repr

/-- The completed process that `subprocess.run(cmd, shell=True, ...)`
returns: exit code, stdout, stderr.  A command line whose binary cannot
be resolved completes with the shell's own exit code 127. -/
def shellRun : CmdResolution → Nat × Line × Line
  | .found exitCode out err => (exitCode, out, err)
  | .binaryNotFound => (127, [], "command not found".data)

/-- `run_command`: `check=True` raises `CalledProcessError` for any
non-zero exit of the completed process; the `except` clause catches it
and returns `False`; a zero exit returns `True`.  No branch produces
`Except.error`. -/
def run_command (r : CmdResolution) : Except Unit Bool :=
  if (shellRun r).1 = 0 then .ok true else .ok false

/-- C9 (counterexample): the claim says `run_command` raises exactly when
the command binary is not found at all.  It does not raise there: under
`shell=True` the shell completes with exit 127, `check=True` raises
`CalledProcessError`, the `except` clause catches it, and `run_command`
returns `False` — no exception escapes. -/
theorem c9_counterexample :
    run_command .binaryNotFound = .ok false ∧
    run_command .binaryNotFound ≠ .error () :=
  ⟨rfl, by simp [run_command, shellRun]⟩

/-- C9 (amended): `run_command` returns `False` for every non-zero exit
and `True` for a zero exit, and it never raises or propagates an
exception for any command outcome — in particular not when the command
binary is not found at all: that case completes with the shell's exit
code 127 and is likewise caught and reported as `False`. -/
theorem c9_run_command (code : Nat) (out err : Line) (h : code ≠ 0) :
    run_command (.found code out err) = .ok false ∧
    (∀ out₂ err₂ : Line, run_command (.found 0 out₂ err₂) = .ok true) ∧
    run_command .binaryNotFound = .ok false ∧
    (∀ r : CmdResolution, run_command r ≠ .error ()) := by
  refine ⟨by simp [run_command, shellRun, h], fun out₂ err₂ => rfl, rfl, ?_⟩
  intro r
  cases r with
  | found c o e => by_cases hc : c = 0 <;> simp [run_command, shellRun, hc]
  | binaryNotFound => simp [run_command, shellRun]

/-- Witness for C9 (amended) at exit code 2. -/
theorem c9_run_command_witness :
    run_command (.found 2 [] []) = .ok false :=
  (c9_run_command 2 [] [] (by decide)).1

/-! ## Git tagging (`create_git_tag` in `release_script.py`)

`create_git_tag` first runs `git tag -l {tag_name}` and tests
`tag_name in result.stdout` (Python substring test); when the tag is
listed it returns `True` immediately.  Otherwise it runs
`git tag -a ...` and then `git push origin {tag_name}`. -/

structure GitEnv where
  /-- stdout of `git tag -l v{version}`; when the tag exists, `git tag -l`
  prints it, so the tag name occurs in this output. -/
  tagListStdout : Line
  /-- outcome of `git tag -a v{version} -m ...` -/
  tagCreateOk : Bool
  /-- outcome of `git push origin v{version}` -/
  tagPushOk : Bool

inductive GitCall where
  | tagList
  | tagCreate
  | tagPush
  deriving DecidableEq, Repr

def tagName (version : Line) : Line := 'v' :: version

/-- Python's substring test `needle in hay`. -/
def containsSub (needle : Line) : Line → Bool
  | [] => needle.isEmpty
  | a :: rest => needle.isPrefixOf (a :: rest) || containsSub needle rest

def create_git_tag (version : Line) (env : GitEnv) : Bool × List GitCall :=
  if containsSub (tagName version) env.tagListStdout then
    (true, [.tagList])
  else if env.tagCreateOk = false then
    (false, [.tagList, .tagCreate])
  else if env.tagPushOk = false then
    (false, [.tagList, .tagCreate, .tagPush])
  else
    (true, [.tagList, .tagCreate, .tagPush])

/-- C5: when tag `v{V}` already exists (it occurs in the output of
`git tag -l v{V}`), `create_git_tag` returns success having invoked only
the tag listing — no tag creation and no tag push. -/
theorem c5_tag_idempotent (version : Line) (env : GitEnv)
    (h : containsSub (tagName version) env.tagListStdout = true) :
    (create_git_tag version env).1 = true ∧
    GitCall.tagCreate ∉ (create_git_tag version env).2 ∧
    GitCall.tagPush ∉ (create_git_tag version env).2 := by
  simp [create_git_tag, h]

/-- Witness for C5: tag `v1.0.0` already listed. -/
theorem c5_tag_idempotent_witness :
    (create_git_tag "1.0.0".data
      ⟨"v1.0.0".data, false, false⟩).1 = true :=
  (c5_tag_idempotent "1.0.0".data ⟨"v1.0.0".data, false, false⟩ (by decide)).1

/-! ## SHA-256 (`hashlib.sha256`)

`prepare_release_assets` seals the copied executable with
`hashlib.sha256`, feeding it the file in 4096-byte chunks.  The hash
object's documented semantics is: `update` appends bytes to the message,
`hexdigest` returns the SHA-256 (FIPS 180-4) of all bytes fed so far, in
lowercase hexadecimal.  SHA-256 itself is implemented below on natural
numbers reduced mod 2^32. -/

def w32 (n : Nat) : Nat := n % 4294967296

def rotr32 (n x : Nat) : Nat := w32 ((x >>> n) ||| (x <<< (32 - n)))

def notW32 (x : Nat) : Nat := 4294967295 - w32 x

def ssig0 (x : Nat) : Nat := rotr32 7 x ^^^ rotr32 18 x ^^^ (x >>> 3)
def ssig1 (x : Nat) : Nat := rotr32 17 x ^^^ rotr32 19 x ^^^ (x >>> 10)
def bsig0 (x : Nat) : Nat := rotr32 2 x ^^^ rotr32 13 x ^^^ rotr32 22 x
def bsig1 (x : Nat) : Nat := rotr32 6 x ^^^ rotr32 11 x ^^^ rotr32 25 x
def chW (x y z : Nat) : Nat := (x &&& y) ^^^ (notW32 x &&& z)
def majW (x y z : Nat) : Nat := (x &&& y) ^^^ (x &&& z) ^^^ (y &&& z)

/-- The 64 SHA-256 round constants (FIPS 180-4 §4.2.2), in decimal. -/
def K256 : List Nat :=
  [1116352408, 1899447441, 3049323471, 3921009573, 961987163,
   1508970993, 2453635748, 2870763221, 3624381080, 310598401,
   607225278, 1426881987, 1925078388, 2162078206, 2614888103,
   3248222580, 3835390401, 4022224774, 264347078, 604807628,
   770255983, 1249150122, 1555081692, 1996064986, 2554220882,
   2821834349, 2952996808, 3210313671, 3336571891, 3584528711,
   113926993, 338241895, 666307205, 773529912, 1294757372,
   1396182291, 1695183700, 1986661051, 2177026350, 2456956037,
   2730485921, 2820302411, 3259730800, 3345764771, 3516065817,
   3600352804, 4094571909, 275423344, 430227734, 506948616,
   659060556, 883997877, 958139571, 1322822218, 1537002063,
   1747873779, 1955562222, 2024104815, 2227730452, 2361852424,
   2428436474, 2756734187, 3204031479, 3329325298]

/-- The initial SHA-256 hash state (FIPS 180-4 §5.3.3), in decimal. -/
def H256 : List Nat :=
  [1779033703, 3144134277, 1013904242, 2773480762,
   1359893119, 2600822924, 528734635, 1541459225]

def wAt (w : List Nat) (i : Nat) : Nat := w.getD i 0

/-- Extend a 16-word message schedule to 64 words (`k` extension steps). -/
def extendSchedule : List Nat → Nat → List Nat
  | w, 0 => w
  | w, k+1 =>
    let i := w.length
    let nw := w32 (ssig1 (wAt w (i - 2)) + wAt w (i - 7) +
      ssig0 (wAt w (i - 15)) + wAt w (i - 16))
    extendSchedule (w ++ [nw]) k

def messageSchedule (block : List Nat) : List Nat := extendSchedule block 48

/-- One round of the SHA-256 compression loop on state `[a,b,c,d,e,f,g,h]`. -/
def round1 (st : List Nat) (k w : Nat) : List Nat :=
  match st with
  | [a, b, c, d, e, f, g, h] =>
    let t1 := w32 (h + bsig1 e + chW e f g + k + w)
    let t2 := w32 (bsig0 a + majW a b c)
    [w32 (t1 + t2), a, b, c, w32 (d + t1), e, f, g]
  | s => s

def compressBlock (h : List Nat) (block : List Nat) : List Nat :=
  let sched := messageSchedule block
  let st := (K256.zip sched).foldl (fun s kw => round1 s kw.1 kw.2) h
  (h.zip st).map (fun p => w32 (p.1 + p.2))

/-- SHA-256 padding: `0x80`, zeros to 56 mod 64, then the 64-bit
big-endian bit length. -/
def padMessage (msg : List Nat) : List Nat :=
  let L := msg.length
  let zeros := (119 - L % 64) % 64
  let lenBytes := (List.range 8).map (fun i => ((8 * L) >>> (8 * (7 - i))) % 256)
  msg ++ 128 :: List.replicate zeros 0 ++ lenBytes

/-- Big-endian 4-byte groups to 32-bit words. -/
def bytesToWords : List Nat → List Nat
  | b0 :: b1 :: b2 :: b3 :: rest =>
    (b0 * 16777216 + b1 * 65536 + b2 * 256 + b3) :: bytesToWords rest
  | _ => []

/-- Split a word list into blocks of 16 words. -/
def toBlocks16 : List Nat → List (List Nat)
  | [] => []
  | w :: ws => (w :: ws).take 16 :: toBlocks16 ((w :: ws).drop 16)
  termination_by ws => ws.length
  decreasing_by
    simp [List.length_drop]
    omega

/-- SHA-256 of a byte sequence, as eight 32-bit words. -/
def sha256Words (msg : List Nat) : List Nat :=
  (toBlocks16 (bytesToWords (padMessage msg))).foldl compressBlock H256

def hexDigitChar (n : Nat) : Char := "0123456789abcdef".data.getD n '0'

def hexWord8 (w : Nat) : Line :=
  (List.range 8).map (fun i => hexDigitChar ((w >>> (4 * (7 - i))) % 16))

def hexOfWords (ws : List Nat) : Line := (ws.map hexWord8).flatten

/-- `hashlib.sha256(...).hexdigest()` of a byte sequence. -/
def sha256hex (msg : List Nat) : Line := hexOfWords (sha256Words msg)

/-- A lowercase hexadecimal character. -/
def isHexChar (c : Char) : Bool := decide (c ∈ "0123456789abcdef".data)

/-- The file-read loop `iter(lambda: exe_file.read(4096), b"")`: split the
file's bytes into maximal chunks of `k` bytes. -/
def readChunks : Nat → List Nat → List (List Nat)
  | _, [] => []
  | 0, bs => [bs]
  | k+1, b :: bs => ((b :: bs).take (k+1)) :: readChunks (k+1) ((b :: bs).drop (k+1))
  termination_by k bs => bs.length
  decreasing_by
    simp [List.length_drop]
    omega

/-- `hashlib` hash-object state: the bytes fed so far; `update` appends. -/
def sha256_update (st chunk : List Nat) : List Nat := st ++ chunk

/-- The checksum computation of `prepare_release_assets`: feed the file to
the digest accumulator chunk by chunk, then take the hex digest. -/
def streamDigest (chunkSize : Nat) (bytes : List Nat) : Line :=
  sha256hex ((readChunks chunkSize bytes).foldl sha256_update [])

theorem readChunks_flatten (k : Nat) (bs : List Nat) :
    (readChunks k bs).flatten = bs := by
  induction k, bs using readChunks.induct with
  | case1 => simp [readChunks]
  | case2 bs _ => simp [readChunks]
  | case3 k b bs ih =>
    rw [readChunks, List.flatten_cons, ih, List.take_append_drop]

theorem foldl_sha256_update (acc : List Nat) (l : List (List Nat)) :
    l.foldl sha256_update acc = acc ++ l.flatten := by
  induction l generalizing acc with
  | nil => simp
  | cons a t ih => simp [sha256_update, ih]

/-- Feeding the digest accumulator the chunks of a file yields the digest
of the file's exact bytes, for any chunk size. -/
theorem streamDigest_eq_sha256hex (chunkSize : Nat) (bytes : List Nat) :
    streamDigest chunkSize bytes = sha256hex bytes := by
  unfold streamDigest
  rw [foldl_sha256_update, List.nil_append, readChunks_flatten]

/-! ### Shape of the hex digest -/

theorem round1_length (st : List Nat) (k w : Nat) :
    (round1 st k w).length = st.length := by
  unfold round1
  split
  · simp
  · rfl

theorem foldl_round1_length (l : List (Nat × Nat)) (st : List Nat) :
    (l.foldl (fun s kw => round1 s kw.1 kw.2) st).length = st.length := by
  induction l generalizing st with
  | nil => rfl
  | cons p t ih => simp [List.foldl_cons, ih, round1_length]

theorem compressBlock_length (h block : List Nat) :
    (compressBlock h block).length = h.length := by
  unfold compressBlock
  simp [List.length_zip, foldl_round1_length]

theorem foldl_compress_length (bs : List (List Nat)) (h : List Nat) :
    (bs.foldl compressBlock h).length = h.length := by
  induction bs generalizing h with
  | nil => rfl
  | cons b t ih => simp [List.foldl_cons, ih, compressBlock_length]

theorem sha256Words_length (msg : List Nat) : (sha256Words msg).length = 8 := by
  unfold sha256Words
  rw [foldl_compress_length]
  rfl

theorem hexWord8_length (w : Nat) : (hexWord8 w).length = 8 := by
  simp [hexWord8]

theorem hexOfWords_length (ws : List Nat) :
    (hexOfWords ws).length = 8 * ws.length := by
  induction ws with
  | nil => rfl
  | cons w t ih =>
    simp only [hexOfWords, List.map_cons, List.flatten_cons,
      List.length_append, hexWord8_length, List.length_cons] at ih ⊢
    omega

/-- The hex digest of any byte sequence has exactly 64 characters. -/
theorem sha256hex_length (msg : List Nat) : (sha256hex msg).length = 64 := by
  unfold sha256hex
  rw [hexOfWords_length, sha256Words_length]

theorem getD_mem_or_default (l : Line) (n : Nat) (d : Char) :
    l.getD n d ∈ l ∨ l.getD n d = d := by
  induction l generalizing n with
  | nil => right; simp [List.getD]
  | cons a t ih =>
    cases n with
    | zero => left; simp [List.getD]
    | succ m =>
      rcases ih m with h | h
      · left
        simp only [List.getD_cons_succ]
        exact List.mem_cons_of_mem a h
      · right
        simpa [List.getD_cons_succ] using h

theorem hexDigitChar_isHex (n : Nat) : isHexChar (hexDigitChar n) = true := by
  unfold hexDigitChar isHexChar
  rcases getD_mem_or_default "0123456789abcdef".data n '0' with h | h
  · exact decide_eq_true h
  · rw [h]; decide

/-- Every character of the hex digest is a lowercase hex character. -/
theorem sha256hex_all_hex (msg : List Nat) :
    ∀ c ∈ sha256hex msg, isHexChar c = true := by
  intro c hc
  unfold sha256hex hexOfWords at hc
  rw [List.mem_flatten] at hc
  obtain ⟨l, hl, hcl⟩ := hc
  rw [List.mem_map] at hl
  obtain ⟨w, _, rfl⟩ := hl
  unfold hexWord8 at hcl
  rw [List.mem_map] at hcl
  obtain ⟨i, _, rfl⟩ := hcl
  exact hexDigitChar_isHex _

/-! ## Platform detection (`get_platform_info` in `build_script.py`) -/

inductive OSName where
  | windows
  | darwin
  | linux
  | other (s : Line)
  deriving DecidableEq, Repr

/-- `get_platform_info`: classify `platform.system().lower()` into a
platform name and an executable extension. -/
def get_platform_info : OSName → Line × Line
  | .windows => ("windows".data, ".exe".data)
  | .darwin => ("macos".data, [])
  | .linux => ("linux".data, [])
  | .other _ => ("unknown".data, [])

/-! ## Pipeline steps and oracle environments

`Step` records the externally observable operations of
`build_script.py`; each step function appends the operations it performs
to the trace it returns. -/

inductive Step where
  | cleanStep
  | checkRequirements
  | buildPackage
  | buildExecutable
  | smokeTestRun
  | logMissingExe
  | sealChecksum
  | testPackage
  | publishTestPyPI
  | publishProduction
  deriving DecidableEq, Repr

/-- Outcome of the smoke test `subprocess.run([exe, "--help"], timeout=10)`. -/
inductive SmokeOutcome where
  | exited (code : Nat)
  | timedOut
  | errored
  deriving DecidableEq, Repr

/-- Oracle for `build_executable`. -/
structure ExeEnv where
  /-- `pyinstaller --version` probe succeeds. -/
  pyinstallerAvailable : Bool
  /-- `pyinstaller {spec_file} --clean` (via `run_command`) succeeds. -/
  packagerOk : Bool
  /-- `dist/gridapi[.exe]` exists after the packager ran. -/
  exeExists : Bool
  /-- outcome of running the produced executable with `--help`. -/
  smoke : SmokeOutcome
  deriving DecidableEq, Repr

structure ExeResult where
  ok : Bool
  trace : List Step
  /-- a smoke-test warning was printed (test failed, timed out or errored) -/
  smokeWarned : Bool
  deriving DecidableEq, Repr

/-- A smoke-test outcome other than exit code 0 is printed as a warning. -/
def smokeIsWarning : SmokeOutcome → Bool
  | .exited 0 => false
  | .exited _ => true
  | .timedOut => true
  | .errored => true

/-- `build_executable` from `build_script.py`: probe PyInstaller, run the
packager, verify the output file exists, smoke-test it (result reported
but ignored), and return `True` exactly when the packager succeeded and
the output file exists. -/
def build_executable (env : ExeEnv) : ExeResult :=
  if env.pyinstallerAvailable = false then
    ⟨false, [.buildExecutable], false⟩
  else if env.packagerOk = false then
    ⟨false, [.buildExecutable], false⟩
  else if env.exeExists = false then
    ⟨false, [.buildExecutable], false⟩
  else
    ⟨true, [.buildExecutable, .smokeTestRun], smokeIsWarning env.smoke⟩

/-- Oracle for `prepare_release_assets`. -/
structure PrepEnv where
  /-- the host platform, from `get_platform_info` -/
  platform : OSName
  /-- `dist/gridapi[.exe]` already exists when the step starts -/
  exeExists : Bool
  /-- oracle for the on-demand `build_executable` call -/
  exeEnv : ExeEnv
  /-- the bytes of the (possibly just built) executable file -/
  exeBytes : List Nat
  deriving DecidableEq, Repr

structure PrepResult where
  ok : Bool
  trace : List Step
  /-- lines of `release-assets/checksums.txt` after the step, `none` when
  the step failed before writing it -/
  manifest : Option (List Line)
  deriving DecidableEq, Repr

/-- The platform-tagged asset name `gridapi-{platform_name}{ext}`. -/
def platformExeName (os : OSName) : Line :=
  "gridapi-".data ++ (get_platform_info os).1 ++ (get_platform_info os).2

/-- The single manifest line `f"{checksum}  {platform_exe_name}"`. -/
def manifestLine (os : OSName) (bytes : List Nat) : Line :=
  streamDigest 4096 bytes ++ "  ".data ++ platformExeName os

/-- `prepare_release_assets` from `build_script.py`: if the executable is
missing, log it and build it on demand (failing only if that build
fails); copy it into `release-assets/` under a platform-tagged name; then
open `checksums.txt` in `"w"` mode (truncating any prior manifest — the
`priorManifest` argument is discarded) and write the one digest line. -/
def prepare_release_assets (priorManifest : List Line) (env : PrepEnv) :
    PrepResult :=
  if env.exeExists = false then
    let r := build_executable env.exeEnv
    if r.ok = false then
      ⟨false, .logMissingExe :: r.trace, none⟩
    else
      ⟨true, .logMissingExe :: r.trace ++ [.sealChecksum],
        some [manifestLine env.platform env.exeBytes]⟩
  else
    ⟨true, [.sealChecksum], some [manifestLine env.platform env.exeBytes]⟩

/-! ## The coordinator (`main` in `build_script.py`) -/

/-- Step-selection flags parsed from `sys.argv` (same names as in
`main`). -/
structure Flags where
  clean_only : Bool
  build_only : Bool
  build_exe : Bool
  build_all : Bool
  prepare_release : Bool
  test_only : Bool
  publish_test : Bool
  publish_prod : Bool
  deriving DecidableEq, Repr

/-- Oracle for one `main` invocation: the outcome each step function
would produce if invoked. -/
structure MainEnv where
  check_requirements_ok : Bool
  build_package_ok : Bool
  exeEnv : ExeEnv
  prepEnv : PrepEnv
  priorManifest : List Line
  test_package_ok : Bool
  publish_test_ok : Bool
  publish_prod_ok : Bool

/-- `main` from `build_script.py`, returning the process exit code and
the trace of step invocations.  `clean_build` always runs first;
`--clean` exits right after it; `check_requirements` failure exits 1;
`build_package` runs when `--build` is given or no later-only flag
(`--test`, `--test-pypi`, `--publish`) is; then the `--exe`,
`--all-platforms` (which calls `build_executable` for the host) and
`--prepare-release` branches each exit; `test_package` runs when
`--test` is given or no publish flag is; finally `--test-pypi` or
`--publish` uploads.  A falling-through `return` exits 0. -/
def mainRun (f : Flags) (env : MainEnv) : Nat × List Step :=
  let t0 := [Step.cleanStep]
  if f.clean_only then (0, t0)
  else
    let t1 := t0 ++ [Step.checkRequirements]
    if env.check_requirements_ok = false then (1, t1)
    else
      let doBuild := f.build_only ||
        !(f.test_only || f.publish_test || f.publish_prod)
      let t2 := if doBuild then t1 ++ [Step.buildPackage] else t1
      if doBuild && env.build_package_ok = false then (1, t2)
      else if f.build_only then (0, t2)
      else if f.build_exe then
        let r := build_executable env.exeEnv
        (if r.ok then 0 else 1, t2 ++ r.trace)
      else if f.build_all then
        let r := build_executable env.exeEnv
        (if r.ok then 0 else 1, t2 ++ r.trace)
      else if f.prepare_release then
        let r := prepare_release_assets env.priorManifest env.prepEnv
        (if r.ok then 0 else 1, t2 ++ r.trace)
      else
        let doTest := f.test_only || !(f.publish_test || f.publish_prod)
        let t3 := if doTest then t2 ++ [Step.testPackage] else t2
        if doTest && env.test_package_ok = false then (1, t3)
        else if f.test_only then (0, t3)
        else if f.publish_test then
          (if env.publish_test_ok then 0 else 1, t3 ++ [Step.publishTestPyPI])
        else if f.publish_prod then
          (if env.publish_prod_ok then 0 else 1, t3 ++ [Step.publishProduction])
        else (0, t3)

/-- An invocation with no step-selection flags. -/
def noFlags : Flags := ⟨false, false, false, false, false, false, false, false⟩

/-- An invocation whose only step-selection flag is `--exe`. -/
def exeOnlyFlags : Flags := ⟨false, false, true, false, false, false, false, false⟩

/-- An oracle in which every external operation succeeds. -/
def allOkEnv : MainEnv :=
  { check_requirements_ok := true
    build_package_ok := true
    exeEnv := ⟨true, true, true, .exited 0⟩
    prepEnv := ⟨.linux, true, ⟨true, true, true, .exited 0⟩, []⟩
    priorManifest := []
    test_package_ok := true
    publish_test_ok := true
    publish_prod_ok := true }

/-! ## Claims about `build_script.py` -/

/-- C1: the claim says a flag-less invocation that completes successfully
has invoked the production publish.  The code disagrees: with no flags,
`publish_test` and `publish_prod` are both `False`, so neither branch of
the final `if publish_test: ... elif publish_prod: ...` runs; the
invocation performs Clean, RequirementsCheck, Build, Test, prints the
completion banner and exits 0 without ever calling `publish_package` —
contradicting the script's own usage text
(`python build_script.py  # Full build, test, and publish`). -/
theorem c1_noflags_no_publish :
    mainRun noFlags allOkEnv =
      (0, [.cleanStep, .checkRequirements, .buildPackage, .testPackage]) ∧
    Step.publishProduction ∉ (mainRun noFlags allOkEnv).2 ∧
    Step.publishTestPyPI ∉ (mainRun noFlags allOkEnv).2 := by
  decide

/-- C3 (counterexample): with `--exe` as the only flag and every external
operation succeeding, the package Build step IS invoked (the condition
`build_only or not (test_only or publish_test or publish_prod)` is true),
so the claim's "skips the package Build step" is false. -/
theorem c3_counterexample :
    Step.buildPackage ∈ (mainRun exeOnlyFlags allOkEnv).2 ∧
    mainRun exeOnlyFlags allOkEnv =
      (0, [.cleanStep, .checkRequirements, .buildPackage,
           .buildExecutable, .smokeTestRun]) := by
  decide

/-- C3 (amended): with `--exe` as the only step-selection flag, the
pipeline runs Clean, RequirementsCheck, the package Build step and then
Package for the current host platform, and exits 0 exactly when the
requirements check, the package build, and the packaged-and-verified
executable build all succeed. -/
theorem c3_exe_pipeline (env : MainEnv) :
    ((mainRun exeOnlyFlags env).1 = 0 ↔
      (env.check_requirements_ok && env.build_package_ok &&
        (build_executable env.exeEnv).ok) = true) ∧
    (env.check_requirements_ok = true → env.build_package_ok = true →
      (mainRun exeOnlyFlags env).2 =
        [.cleanStep, .checkRequirements, .buildPackage] ++
          (build_executable env.exeEnv).trace) := by
  cases h1 : env.check_requirements_ok <;>
    cases h2 : env.build_package_ok <;>
      cases h3 : (build_executable env.exeEnv).ok <;>
        simp [mainRun, exeOnlyFlags, h1, h2, h3]

/-- Witness for C3 (amended) with every operation succeeding. -/
theorem c3_exe_pipeline_witness :
    (mainRun exeOnlyFlags allOkEnv).1 = 0 ∧
    (mainRun exeOnlyFlags allOkEnv).2 =
      [.cleanStep, .checkRequirements, .buildPackage] ++
        (build_executable allOkEnv.exeEnv).trace :=
  ⟨(c3_exe_pipeline allOkEnv).1.mpr (by decide),
   (c3_exe_pipeline allOkEnv).2 rfl rfl⟩

/-- C4: any invocation whose arguments include `--clean` performs the
Clean step only — the trace is exactly `[cleanStep]`, so build,
executable packaging, test and publish are never invoked — and exits 0. -/
theorem c4_clean_only (f : Flags) (env : MainEnv) (h : f.clean_only = true) :
    mainRun f env = (0, [Step.cleanStep]) ∧
    ∀ s ∈ (mainRun f env).2, s = Step.cleanStep := by
  have hm : mainRun f env = (0, [Step.cleanStep]) := by
    simp [mainRun, h]
  refine ⟨hm, ?_⟩
  rw [hm]
  intro s hs
  simpa using hs

/-- Witness for C4: `--clean` at a concrete flag set and oracle exits 0
after Clean alone. -/
theorem c4_clean_only_witness :
    mainRun ⟨true, false, false, false, false, false, false, false⟩
      allOkEnv = (0, [Step.cleanStep]) :=
  (c4_clean_only _ allOkEnv rfl).1

/-- The trace of `build_executable` is `[buildExecutable]` or
`[buildExecutable, smokeTestRun]`. -/
theorem build_executable_trace_cases (e : ExeEnv) :
    (build_executable e).trace = [Step.buildExecutable] ∨
    (build_executable e).trace = [Step.buildExecutable, Step.smokeTestRun] := by
  cases h1 : e.pyinstallerAvailable <;> cases h2 : e.packagerOk <;>
    cases h3 : e.exeExists <;> simp [build_executable, h1, h2, h3]

/-- C7: when no packaged executable exists at the expected output path,
`prepare_release_assets` logs that it is missing and invokes
`build_executable` first, succeeds exactly when that on-demand build
succeeds, and its trace begins with the log and the build. -/
theorem c7_prereq_on_demand (prior : List Line) (env : PrepEnv)
    (h : env.exeExists = false) :
    (prepare_release_assets prior env).ok = (build_executable env.exeEnv).ok ∧
    (prepare_release_assets prior env).trace =
      Step.logMissingExe :: (build_executable env.exeEnv).trace ++
        (if (build_executable env.exeEnv).ok then [Step.sealChecksum] else []) ∧
    Step.logMissingExe ∈ (prepare_release_assets prior env).trace ∧
    Step.buildExecutable ∈ (prepare_release_assets prior env).trace := by
  have htr := build_executable_trace_cases env.exeEnv
  cases hb : (build_executable env.exeEnv).ok <;>
    rcases htr with htr | htr <;>
      simp [prepare_release_assets, h, hb, htr]

/-- Witness for C7: executable absent, on-demand build succeeds. -/
theorem c7_prereq_on_demand_witness :
    (prepare_release_assets []
        ⟨.linux, false, ⟨true, true, true, .exited 0⟩, []⟩).ok
      = (build_executable ⟨true, true, true, .exited 0⟩).ok ∧
    Step.buildExecutable ∈
      (prepare_release_assets []
        ⟨.linux, false, ⟨true, true, true, .exited 0⟩, []⟩).trace :=
  ⟨(c7_prereq_on_demand [] ⟨.linux, false, ⟨true, true, true, .exited 0⟩, []⟩
      rfl).1,
   (c7_prereq_on_demand [] ⟨.linux, false, ⟨true, true, true, .exited 0⟩, []⟩
      rfl).2.2.2⟩

/-- C8: packaging success is independent of the smoke-test outcome:
`build_executable` returns `True` exactly when PyInstaller is available,
the packager succeeded and the output file exists (a right-hand side not
mentioning the smoke test), changing only the smoke outcome never
changes the result, and a failing smoke test is reported as a warning. -/
theorem c8_smoke_warning_only (env : ExeEnv) :
    ((build_executable env).ok = true ↔
      (env.pyinstallerAvailable && env.packagerOk && env.exeExists) = true) ∧
    (∀ s : SmokeOutcome,
      (build_executable { env with smoke := s }).ok = (build_executable env).ok) ∧
    (env.pyinstallerAvailable = true → env.packagerOk = true →
      env.exeExists = true →
      (build_executable env).smokeWarned = smokeIsWarning env.smoke) := by
  cases h1 : env.pyinstallerAvailable <;> cases h2 : env.packagerOk <;>
    cases h3 : env.exeExists <;> simp [build_executable, h1, h2, h3]

/-- Witness for C8: the smoke test times out, yet packaging reports
success, with the timeout reported as a warning. -/
theorem c8_smoke_warning_only_witness :
    (build_executable ⟨true, true, true, .timedOut⟩).ok = true ∧
    (build_executable ⟨true, true, true, .timedOut⟩).smokeWarned
      = smokeIsWarning .timedOut :=
  ⟨(c8_smoke_warning_only ⟨true, true, true, .timedOut⟩).1.mpr (by decide),
   (c8_smoke_warning_only ⟨true, true, true, .timedOut⟩).2.2 rfl rfl rfl⟩

/-- C6: whenever a `--prepare-release` asset-preparation run completes,
the manifest is overwritten (the prior manifest `prior` does not appear)
with exactly one line `"<digest>  gridapi-<platform>"`; the digest is
computed by streaming the file in 4096-byte chunks and equals the
SHA-256 of the file's exact bytes, and it is 64 lowercase hex
characters. -/
theorem c6_manifest_seal (prior : List Line) (env : PrepEnv)
    (h : (prepare_release_assets prior env).ok = true) :
    (prepare_release_assets prior env).manifest =
      some [sha256hex env.exeBytes ++ "  ".data ++ platformExeName env.platform] ∧
    streamDigest 4096 env.exeBytes = sha256hex env.exeBytes ∧
    (sha256hex env.exeBytes).length = 64 ∧
    (∀ c ∈ sha256hex env.exeBytes, isHexChar c = true) := by
  refine ⟨?_, streamDigest_eq_sha256hex 4096 env.exeBytes,
    sha256hex_length env.exeBytes, sha256hex_all_hex env.exeBytes⟩
  cases he : env.exeExists with
  | true => simp [prepare_release_assets, he, manifestLine,
      streamDigest_eq_sha256hex]
  | false =>
    cases hb : (build_executable env.exeEnv).ok with
    | false => simp [prepare_release_assets, he, hb] at h
    | true => simp [prepare_release_assets, he, hb, manifestLine,
        streamDigest_eq_sha256hex]

/-- Witness for C6: a successful run over an existing (empty) executable
file, with a stale manifest line that gets overwritten. -/
theorem c6_manifest_seal_witness :
    (prepare_release_assets ["stale line".data]
        ⟨.linux, true, ⟨true, true, true, .exited 0⟩, []⟩).manifest =
      some [sha256hex [] ++ "  ".data ++ platformExeName .linux] :=
  (c6_manifest_seal ["stale line".data]
    ⟨.linux, true, ⟨true, true, true, .exited 0⟩, []⟩ (by decide)).1
